import Mathlib

/-!
Shallow embedding of the moexer portfolio analyzer core, translated from the
Python sources:

  * `src/models/state.py` — `PortfolioPosition`, `Portfolio`, `AnalysisResult`
    and their pydantic validators;
  * `src/utils/helpers.py` — `retry_on_failure`, `truncate_text`;
  * `src/analyzers/rebalancing_analyzer.py` — `RebalancingAnalyzer.suggest_rebalancing`;
  * `src/analyzers/portfolio_analyzer.py` — recommendation extraction,
    `final_analysis` truncation, `analyze_portfolio`;
  * `src/analyzers/async_portfolio_analyzer.py` — `analyze_portfolio_async`.

Monetary amounts (Python `float`) are modelled as exact rationals `ℚ`;
Python dictionaries are modelled as insertion-ordered association lists with
Python's update-in-place/append-at-end semantics (`dinsert`);
raising code is modelled with `Except`.  The external price lookup
`price_getter` and the per-ticker pipeline invocation `chain.invoke` are
modelled as explicit fallible function parameters, mirroring how the Python
code receives them as collaborators.  Python's `ZeroDivisionError` at a zero
price is not reachable in any statement below (all price hypotheses are
strictly positive), and real-time sleeping is recorded as a trace of waited
delays.
-/

namespace Moexer

/-- Python dict assignment `d[k] = v` on an insertion-ordered association
list: replaces the value at an existing key in place, otherwise appends the
new binding at the end. -/
def dinsert {β : Type} : List (String × β) → String → β → List (String × β)
  | [], k, v => [(k, v)]
  | (k', v') :: rest, k, v =>
    if k' = k then (k, v) :: rest else (k', v') :: dinsert rest k v

/-- Python dict lookup `d[k]` / `k in d` on an association list (first
binding wins; `dinsert` keeps keys unique so at most one binding exists). -/
def dlookup {β : Type} : List (String × β) → String → Option β
  | [], _ => none
  | (k', v) :: rest, k => if k' = k then some v else dlookup rest k

/-- `k in d` for the association-list dictionary model. -/
def dmem {β : Type} (l : List (String × β)) (k : String) : Bool :=
  (dlookup l k).isSome

/-- `RiskProfile` enum from `src/models/state.py`. -/
inductive RiskProfile where
  | CONSERVATIVE
  | BALANCED
  | AGGRESSIVE
deriving DecidableEq, Repr

/-- `PortfolioPosition` from `src/models/state.py`: a ticker plus a held
quantity.  Construction goes through `mkPortfolioPosition` below, which
models the pydantic validators. -/
structure PortfolioPosition where
  ticker : String
  quantity : Int
deriving DecidableEq, Repr

/-- Python `v.upper()`: character-wise uppercase normalization. -/
def pyUpper (s : String) : String :=
  String.mk (s.data.map Char.toUpper)

/-- `PortfolioPosition.validate_ticker`: rejects an empty or shorter-than-3
ticker, otherwise normalizes to upper case (`if not v or len(v) < 3: raise`;
`return v.upper()`; the emptiness test is subsumed by the length test). -/
def validate_ticker (v : String) : Except String String :=
  if v.length < 3 then Except.error "Ticker must be at least 3 characters"
  else Except.ok (pyUpper v)

/-- `PortfolioPosition.validate_quantity`: rejects a negative quantity
(`if v < 0: raise`; `return v`). -/
def validate_quantity (v : Int) : Except String Int :=
  if v < 0 then Except.error "Quantity must be non-negative"
  else Except.ok v

/-- Validating construction of a `PortfolioPosition` (pydantic runs the two
field validators; construction fails when either does). -/
def mkPortfolioPosition (ticker : String) (quantity : Int) :
    Except String PortfolioPosition :=
  match validate_ticker ticker with
  | Except.error e => Except.error e
  | Except.ok t =>
    match validate_quantity quantity with
    | Except.error e => Except.error e
    | Except.ok q => Except.ok ⟨t, q⟩

/-- `Portfolio` from `src/models/state.py`: positions, cash in roubles and a
risk profile. -/
structure Portfolio where
  positions : List PortfolioPosition
  cash_rub : ℚ
  risk_profile : RiskProfile
deriving DecidableEq, Repr

/-- `Portfolio.get_position`: first position whose ticker matches, else
`None`. -/
def Portfolio.get_position (p : Portfolio) (ticker : String) :
    Option PortfolioPosition :=
  p.positions.find? (fun pos => pos.ticker = ticker)

/-- `AnalysisResult` from `src/models/state.py`.  The `recommendation` field
is a plain string: pydantic places no validator on it (relevant to claim
C10); `confidence` is validated by `validate_confidence`. -/
structure AnalysisResult where
  ticker : String
  recommendation : String
  confidence : ℚ
  analysis_data : List (String × String)
deriving DecidableEq, Repr

/-- `AnalysisResult.validate_confidence`: accepts exactly the closed interval
`[0, 1]` (`if not 0.0 <= v <= 1.0: raise`; `return v`). -/
def validate_confidence (v : ℚ) : Except String ℚ :=
  if 0 ≤ v ∧ v ≤ 1 then Except.ok v
  else Except.error "Confidence must be between 0 and 1"

/-- Validating construction of an `AnalysisResult`: only the confidence field
has a validator. -/
def mkAnalysisResult (ticker recommendation : String) (confidence : ℚ)
    (analysis_data : List (String × String)) : Except String AnalysisResult :=
  match validate_confidence confidence with
  | Except.error e => Except.error e
  | Except.ok c => Except.ok ⟨ticker, recommendation, c, analysis_data⟩

/-- `truncate_text` from `src/utils/helpers.py`: returns the text unchanged
when it already fits, otherwise the first `max_length` characters followed by
a three-character ellipsis (`text[:max_length] + "..."`). -/
def truncate_text (text : String) (max_length : Nat) : String :=
  if text.length ≤ max_length then text
  else String.mk (text.data.take max_length) ++ "..."

/-- Does `tok` occur at the head of `text`?  Helper for the substring test. -/
def tokStartsAt : List Char → List Char → Bool
  | [], _ => true
  | _ :: _, [] => false
  | c :: cs, d :: ds => c == d && tokStartsAt cs ds

/-- Python's `tok in text` substring containment, on character lists. -/
def tokenIn (tok : List Char) : List Char → Bool
  | [] => tokStartsAt tok []
  | c :: rest => tokStartsAt tok (c :: rest) || tokenIn tok rest

/-- Python's `tok in text` on strings. -/
def strContains (text tok : String) : Bool :=
  tokenIn tok.data text.data

/-- Recommendation extraction from the final-verdict text, as written inline
in `PortfolioAnalyzer.analyze_portfolio` and
`AsyncPortfolioAnalyzer._analyze_single`:

    recommendation = "ДЕРЖАТЬ"
    if "КУПИТЬ" in result["final_data"]: recommendation = "КУПИТЬ"
    elif "ПРОДАВАТЬ" in result["final_data"]: recommendation = "ПРОДАВАТЬ"
-/
def extract_recommendation (final_data : String) : String :=
  if strContains final_data "КУПИТЬ" then "КУПИТЬ"
  else if strContains final_data "ПРОДАВАТЬ" then "ПРОДАВАТЬ"
  else "ДЕРЖАТЬ"

/-- Python `int(x)` on a float/rational: truncation toward zero. -/
def pyInt (x : ℚ) : Int :=
  if 0 ≤ x then ⌊x⌋ else ⌈x⌉

/-- Python `round(x)` (no `ndigits`): round half to even ("banker's
rounding"). -/
def pyRound (x : ℚ) : Int :=
  let f := ⌊x⌋
  let frac := x - f
  if frac < 1/2 then f
  else if 1/2 < frac then f + 1
  else if f % 2 = 0 then f else f + 1

/-- `RebalancingAnalyzer.BROKER_FEE = 0.0006`. -/
def BROKER_FEE : ℚ := 6/10000

/-- `RebalancingAnalyzer.TAX_RATE = 0.15`. -/
def TAX_RATE : ℚ := 15/100

/-- The fixed three-key `recommendations_count` dictionary of
`suggest_rebalancing`. -/
structure RecCounts where
  buy : Nat
  sell : Nat
  hold : Nat
deriving DecidableEq, Repr

/-- One execution of `recommendations_count[result.recommendation] += 1`:
indexing the fixed three-key dictionary with any other string raises a
`KeyError`. -/
def recIncr (c : RecCounts) (rec : String) : Except String RecCounts :=
  if rec = "КУПИТЬ" then Except.ok ⟨c.buy + 1, c.sell, c.hold⟩
  else if rec = "ПРОДАВАТЬ" then Except.ok ⟨c.buy, c.sell + 1, c.hold⟩
  else if rec = "ДЕРЖАТЬ" then Except.ok ⟨c.buy, c.sell, c.hold + 1⟩
  else Except.error ("KeyError: " ++ rec)

/-- The counting loop `for result in analysis_results.values():
recommendations_count[result.recommendation] += 1`. -/
def countRecommendations (c : RecCounts) :
    List (String × AnalysisResult) → Except String RecCounts
  | [] => Except.ok c
  | p :: rest =>
    match recIncr c p.2.recommendation with
    | Except.error e => Except.error e
    | Except.ok c' => countRecommendations c' rest

/-- The mutable state threaded through `suggest_rebalancing`: the
`rebalancing_suggestions` dictionary and the running `cash` pool. -/
structure RebState where
  suggestions : List (String × String)
  cash : ℚ
deriving DecidableEq, Repr

/-- One iteration of the sell loop of `suggest_rebalancing` for the entry
`(ticker, result)`.  Skips non-SELL recommendations; records
"Позиция отсутствует" for an absent or non-positive position;
records "Цена недоступна" when the price lookup raises; otherwise sells the
whole position, adds `price*qty*(1-fee)*(1-tax)` to the cash pool and
records "Продать qty". -/
def sellStep (price_getter : String → Except String ℚ) (portfolio : Portfolio)
    (st : RebState) (p : String × AnalysisResult) : RebState :=
  if p.2.recommendation ≠ "ПРОДАВАТЬ" then st
  else
    match portfolio.get_position p.1 with
    | none => { st with suggestions := dinsert st.suggestions p.1 "Позиция отсутствует" }
    | some pos =>
      if pos.quantity ≤ 0 then
        { st with suggestions := dinsert st.suggestions p.1 "Позиция отсутствует" }
      else
        match price_getter p.1 with
        | Except.error _ =>
          { st with suggestions := dinsert st.suggestions p.1 "Цена недоступна" }
        | Except.ok price =>
          let proceeds := price * pos.quantity * (1 - BROKER_FEE)
          let proceeds_after_tax := proceeds * (1 - TAX_RATE)
          { suggestions := dinsert st.suggestions p.1 ("Продать " ++ toString pos.quantity),
            cash := st.cash + proceeds_after_tax }

/-- The sell loop (`for ticker, result in analysis_results.items()` with the
SELL filter). -/
def sellPhase (price_getter : String → Except String ℚ) (portfolio : Portfolio) :
    List (String × AnalysisResult) → RebState → RebState
  | [], st => st
  | p :: rest, st => sellPhase price_getter portfolio rest (sellStep price_getter portfolio st p)

/-- `buy_tickers = [t for t, r in analysis_results.items() if
r.recommendation == "КУПИТЬ"]`. -/
def buyTickersOf (analysis_results : List (String × AnalysisResult)) : List String :=
  (analysis_results.filter (fun p => p.2.recommendation = "КУПИТЬ")).map Prod.fst

/-- One iteration of the buy loop of `suggest_rebalancing`: on a failed price
lookup records "Цена недоступна"; otherwise splits the *current* cash pool by
the total number of buy candidates (`cash_per_ticker = cash / buy_count`,
recomputed on every iteration over the already-reduced pool), truncates
`cash_per_ticker / (price * (1 + fee))` to a whole quantity, and either
deducts the true cost and records "Купить qty" or records
"Недостаточно средств" leaving the pool unchanged. -/
def buyStep (price_getter : String → Except String ℚ) (buy_count : Nat)
    (st : RebState) (ticker : String) : RebState :=
  match price_getter ticker with
  | Except.error _ =>
    { st with suggestions := dinsert st.suggestions ticker "Цена недоступна" }
  | Except.ok price =>
    let cash_per_ticker : ℚ := if buy_count = 0 then 0 else st.cash / buy_count
    let qty : Int := pyInt (cash_per_ticker / (price * (1 + BROKER_FEE)))
    if 0 < qty then
      let cost := qty * price * (1 + BROKER_FEE)
      { suggestions := dinsert st.suggestions ticker ("Купить " ++ toString qty),
        cash := st.cash - cost }
    else
      { st with suggestions := dinsert st.suggestions ticker "Недостаточно средств" }

/-- The buy loop (`for ticker in buy_tickers`). -/
def buyPhase (price_getter : String → Except String ℚ) (buy_count : Nat) :
    List String → RebState → RebState
  | [], st => st
  | t :: rest, st => buyPhase price_getter buy_count rest (buyStep price_getter buy_count st t)

/-- The final fill-in loop: every analysed ticker not yet in the plan is
recorded as "Держать". -/
def holdPhase : List (String × AnalysisResult) → RebState → RebState
  | [], st => st
  | p :: rest, st =>
    if dmem st.suggestions p.1 then holdPhase rest st
    else holdPhase rest { st with suggestions := dinsert st.suggestions p.1 "Держать" }

/-- `RebalancingAnalyzer.suggest_rebalancing` from
`src/analyzers/rebalancing_analyzer.py`: on an empty result mapping returns
the empty plan at once; otherwise counts recommendations (raising `KeyError`
on any recommendation outside the fixed three tokens), then runs the sell
loop, the buy loop and the hold fill-in, and finally records the residual
entry `rebalancing_suggestions["RUB"] = f"Остаток {int(round(cash))}"`. -/
def suggest_rebalancing (price_getter : String → Except String ℚ)
    (analysis_results : List (String × AnalysisResult)) (portfolio : Portfolio) :
    Except String (List (String × String)) :=
  if analysis_results.length = 0 then Except.ok []
  else
    match countRecommendations ⟨0, 0, 0⟩ analysis_results with
    | Except.error e => Except.error e
    | Except.ok _ =>
      let st0 : RebState := ⟨[], portfolio.cash_rub⟩
      let st1 := sellPhase price_getter portfolio analysis_results st0
      let buy_tickers := buyTickersOf analysis_results
      let st2 := buyPhase price_getter buy_tickers.length buy_tickers st1
      let st3 := holdPhase analysis_results st2
      Except.ok (dinsert st3.suggestions "RUB" ("Остаток " ++ toString (pyRound st3.cash)))

/-- The `State` TypedDict from `src/models/state.py`, threaded through the
7-stage pipeline (quantity as integer, the other fields textual). -/
structure State where
  ticker : String
  quantity : Int
  news : String
  semantic : String
  moex_data : String
  moex_data_analysis : String
  ifrs_data : String
  final_data : String
  market_news : String
deriving DecidableEq, Repr

/-- The four truncated stage summaries built at the start of
`PortfolioAnalyzer.final_analysis` (market mood, graded news, technical
analysis, fundamentals), each passed through `truncate_text(_, 300)`. -/
def final_analysis_summaries (state : State) : String × String × String × String :=
  (truncate_text state.market_news 300,
   truncate_text state.semantic 300,
   truncate_text state.moex_data_analysis 300,
   truncate_text state.ifrs_data 300)

/-- The stage-7 user prompt of `PortfolioAnalyzer.final_analysis`, assembled
from the four truncated summaries. -/
def final_analysis_user_prompt (state : State) : String :=
  let s := final_analysis_summaries state
  "Сводка по " ++ state.ticker ++ ":\n" ++
  "- Рынок: " ++ s.1 ++ "\n" ++
  "- Компания: " ++ s.2.1 ++ "\n" ++
  "- График: " ++ s.2.2.1 ++ "\n" ++
  "- Финансы: " ++ s.2.2.2 ++ "\n" ++
  "Цель: доход > депозитов, минимум риска"

/-- The `AnalysisResult` built from a completed pipeline state by
`PortfolioAnalyzer.analyze_portfolio` and
`AsyncPortfolioAnalyzer._analyze_single` (recommendation extracted from the
final verdict, confidence fixed at 0.8). -/
def buildResult (pos : PortfolioPosition) (r : State) : AnalysisResult :=
  { ticker := pos.ticker
    recommendation := extract_recommendation r.final_data
    confidence := 8/10
    analysis_data :=
      [("market_news", r.market_news), ("semantic", r.semantic),
       ("moex_analysis", r.moex_data_analysis), ("ifrs_data", r.ifrs_data),
       ("final_decision", r.final_data)] }

/-- The degraded result recorded by the `except` branch of
`PortfolioAnalyzer.analyze_portfolio` when a ticker's whole pipeline run
raises. -/
def errorResult (pos : PortfolioPosition) (e : String) : AnalysisResult :=
  { ticker := pos.ticker
    recommendation := "ДЕРЖАТЬ"
    confidence := 0
    analysis_data := [("error", e)] }

/-- `PortfolioAnalyzer.analyze_portfolio` (sequential controller): one
pipeline invocation per position, each wrapped in `try`/`except` so that a
raising run is recorded as a degraded HOLD result instead of propagating.
The compiled pipeline `chain.invoke` is the explicit fallible parameter
`invoke`. -/
def analyze_portfolio (invoke : PortfolioPosition → Except String State)
    (portfolio : Portfolio) : List (String × AnalysisResult) :=
  portfolio.positions.foldl
    (fun acc pos =>
      match invoke pos with
      | Except.ok r => dinsert acc pos.ticker (buildResult pos r)
      | Except.error e => dinsert acc pos.ticker (errorResult pos e))
    []

/-- `AsyncPortfolioAnalyzer.analyze_portfolio_async`: one `_analyze_single`
task per position, gathered with `asyncio.gather` (default
`return_exceptions=False`).  `_analyze_single` has no `try`/`except`, so any
raising pipeline run propagates out of `gather` and no mapping is returned;
otherwise the dict comprehension collects one entry per ticker. -/
def analyze_portfolio_async (invoke : PortfolioPosition → Except String State)
    (portfolio : Portfolio) : Except String (List (String × AnalysisResult)) :=
  match portfolio.positions.mapM
      (fun pos =>
        match invoke pos with
        | Except.ok r => Except.ok (pos.ticker, buildResult pos r)
        | Except.error e => (Except.error e : Except String (String × AnalysisResult))) with
  | Except.error e => Except.error e
  | Except.ok l => Except.ok (l.foldl (fun acc p => dinsert acc p.1 p.2) [])

/-- Outcome of one invocation of the operation wrapped by
`retry_on_failure`: a value, a transient error (`requests.RequestException`
or `ConnectionError`), or any other exception. -/
inductive CallResult (A : Type) where
  | ok (a : A)
  | transient (msg : String)
  | fatal (msg : String)
deriving DecidableEq, Repr

/-- Final outcome of the wrapped call: a returned value, the `APIError`
raised after exhausting all attempts, or a non-transient exception re-raised
unchanged. -/
inductive RetryOutcome (A : Type) where
  | value (a : A)
  | apiError (msg : String)
  | reraised (msg : String)
deriving DecidableEq, Repr

/-- Observable trace of one run of the wrapper: how many times the wrapped
operation was invoked, the sequence of `time.sleep(delay)` waits performed,
and the outcome (`none` models the implicit `return None` of the Python
function when `max_retries = 0` makes the loop body never run). -/
structure RetryTrace (A : Type) where
  calls : Nat
  sleeps : List ℚ
  outcome : Option (RetryOutcome A)
deriving DecidableEq, Repr

/-- The `for attempt in range(max_retries)` loop of `retry_on_failure`
(`src/utils/helpers.py`), starting at iteration `attempt`.  The wrapped
operation is modelled as `f : Nat → CallResult A`, giving the outcome of its
`attempt`-th invocation. -/
def retryGo {A : Type} (f : Nat → CallResult A) (delay : ℚ) (max_retries : Nat)
    (attempt : Nat) : RetryTrace A :=
  if _h : attempt < max_retries then
    match f attempt with
    | CallResult.ok a => ⟨1, [], some (RetryOutcome.value a)⟩
    | CallResult.fatal msg => ⟨1, [], some (RetryOutcome.reraised msg)⟩
    | CallResult.transient msg =>
      if attempt = max_retries - 1 then
        ⟨1, [], some (RetryOutcome.apiError
          ("API call failed after " ++ toString max_retries ++ " attempts: " ++ msg))⟩
      else
        let rest := retryGo f delay max_retries (attempt + 1)
        ⟨rest.calls + 1, delay :: rest.sleeps, rest.outcome⟩
  else ⟨0, [], none⟩
termination_by max_retries - attempt
decreasing_by omega

/-- `retry_on_failure(max_retries, delay)` applied to the operation `f`: run
the attempt loop from attempt 0. -/
def retry_on_failure {A : Type} (max_retries : Nat) (delay : ℚ)
    (f : Nat → CallResult A) : RetryTrace A :=
  retryGo f delay max_retries 0

/-! Section: Dictionary lemmas -/

theorem dlookup_dinsert_self {β : Type} (l : List (String × β)) (k : String) (v : β) :
    dlookup (dinsert l k v) k = some v := by
  induction l with
  | nil => simp [dinsert, dlookup]
  | cons p rest ih =>
    by_cases h : p.1 = k
    · simp [dinsert, dlookup, h]
    · simp [dinsert, dlookup, h, ih]

theorem dlookup_dinsert_ne {β : Type} (l : List (String × β)) (k k' : String) (v : β)
    (h : k ≠ k') : dlookup (dinsert l k v) k' = dlookup l k' := by
  induction l with
  | nil => simp [dinsert, dlookup, h]
  | cons p rest ih =>
    by_cases hp : p.1 = k
    · simp [dinsert, dlookup, hp, h]
    · simp only [dinsert, hp, if_false, dlookup]
      by_cases hp' : p.1 = k'
      · simp [dlookup, hp']
      · simp [dlookup, hp', ih]

theorem dlookup_dinsert_some {β : Type} (l : List (String × β)) (k k' : String)
    (v v' : β) (h : dlookup l k' = some v') :
    dlookup (dinsert l k v) k' = some (if k = k' then v else v') := by
  by_cases hk : k = k'
  · subst hk; simp [dlookup_dinsert_self]
  · simp [hk, dlookup_dinsert_ne l k k' v hk, h]

/-! Section: Truncation lemmas -/

theorem truncate_text_of_le (text : String) (m : Nat) (h : text.length ≤ m) :
    truncate_text text m = text := by
  simp [truncate_text, h]

theorem truncate_text_length_of_lt (text : String) (m : Nat) (h : m < text.length) :
    (truncate_text text m).length = m + 3 := by
  have hnot : ¬ text.length ≤ m := Nat.not_le.mpr h
  have hm : m ≤ text.data.length := Nat.le_of_lt h
  have h3 : ("..." : String).length = 3 := rfl
  rw [truncate_text, if_neg hnot, String.length_append, String.length_mk,
    List.length_take, Nat.min_eq_left hm, h3]

theorem truncate_text_length_le (text : String) (m : Nat) :
    (truncate_text text m).length ≤ m + 3 := by
  by_cases h : text.length ≤ m
  · rw [truncate_text_of_le text m h]; omega
  · rw [truncate_text_length_of_lt text m (Nat.not_le.mp h)]

/-! Section: Rounding lemmas -/

theorem pyInt_eq_floor (x : ℚ) (h : 0 ≤ x) : pyInt x = ⌊x⌋ := by
  simp [pyInt, h]

/-! Section: Cash accounting for the allocator -/

/-- After-fee-and-tax proceeds contributed to the cash pool by one entry of
the sell loop (zero whenever the loop records no sale for it). -/
def sellContrib (price_getter : String → Except String ℚ) (portfolio : Portfolio)
    (p : String × AnalysisResult) : ℚ :=
  if p.2.recommendation ≠ "ПРОДАВАТЬ" then 0
  else
    match portfolio.get_position p.1 with
    | none => 0
    | some pos =>
      if pos.quantity ≤ 0 then 0
      else
        match price_getter p.1 with
        | Except.error _ => 0
        | Except.ok price => price * pos.quantity * (1 - BROKER_FEE) * (1 - TAX_RATE)

/-- Total after-fee-and-tax sell proceeds of the sell loop. -/
def sellGain (price_getter : String → Except String ℚ) (portfolio : Portfolio) :
    List (String × AnalysisResult) → ℚ
  | [] => 0
  | p :: rest => sellContrib price_getter portfolio p + sellGain price_getter portfolio rest

/-- Total cost deducted by the buy loop, starting from cash pool `cash` with
`n` buy candidates: each successful buy costs `qty * price * (1 + fee)` where
`qty` truncates `(cash_at_that_point / n) / (price * (1 + fee))`. -/
def buyCost (price_getter : String → Except String ℚ) (n : Nat) (cash : ℚ) :
    List String → ℚ
  | [] => 0
  | t :: rest =>
    match price_getter t with
    | Except.error _ => buyCost price_getter n cash rest
    | Except.ok price =>
      let share : ℚ := if n = 0 then 0 else cash / n
      let qty : Int := pyInt (share / (price * (1 + BROKER_FEE)))
      if 0 < qty then
        qty * price * (1 + BROKER_FEE) +
          buyCost price_getter n (cash - qty * price * (1 + BROKER_FEE)) rest
      else buyCost price_getter n cash rest

theorem sellStep_cash (price_getter : String → Except String ℚ)
    (portfolio : Portfolio) (st : RebState) (p : String × AnalysisResult) :
    (sellStep price_getter portfolio st p).cash
      = st.cash + sellContrib price_getter portfolio p := by
  unfold sellStep sellContrib
  by_cases h : p.2.recommendation = "ПРОДАВАТЬ"
  · simp only [h, ne_eq, not_true_eq_false, if_false]
    cases hpos : portfolio.get_position p.1 with
    | none => simp
    | some pos =>
      by_cases hq : pos.quantity ≤ 0
      · simp [hq]
      · cases hpg : price_getter p.1 with
        | error e => simp [hq]
        | ok price => simp [hq]
  · simp [h]

theorem sellPhase_cash (price_getter : String → Except String ℚ)
    (portfolio : Portfolio) (l : List (String × AnalysisResult)) (st : RebState) :
    (sellPhase price_getter portfolio l st).cash
      = st.cash + sellGain price_getter portfolio l := by
  induction l generalizing st with
  | nil => simp [sellPhase, sellGain]
  | cons p rest ih =>
    rw [sellPhase, sellGain, ih, sellStep_cash]
    ring

theorem buyStep_cash_error (price_getter : String → Except String ℚ) (n : Nat)
    (st : RebState) (t : String) (e : String) (h : price_getter t = Except.error e) :
    (buyStep price_getter n st t).cash = st.cash := by
  unfold buyStep
  rw [h]

theorem buyPhase_cash (price_getter : String → Except String ℚ) (n : Nat)
    (l : List String) (st : RebState) :
    (buyPhase price_getter n l st).cash
      = st.cash - buyCost price_getter n st.cash l := by
  induction l generalizing st with
  | nil => simp [buyPhase, buyCost]
  | cons t rest ih =>
    rw [buyPhase, buyCost, ih]
    cases hpg : price_getter t with
    | error e =>
      unfold buyStep
      rw [hpg]
    | ok price =>
      unfold buyStep
      rw [hpg]
      simp only []
      by_cases hq : 0 < pyInt ((if n = 0 then 0 else st.cash / n) / (price * (1 + BROKER_FEE)))
      · simp only [hq, if_true]
        ring_nf
      · simp only [hq, if_false]

theorem holdPhase_cash (l : List (String × AnalysisResult)) (st : RebState) :
    (holdPhase l st).cash = st.cash := by
  induction l generalizing st with
  | nil => rfl
  | cons p rest ih =>
    rw [holdPhase]
    by_cases h : dmem st.suggestions p.1
    · simp [h, ih]
    · simp [h, ih]

/-! Section: Key preservation through the allocator phases -/

theorem sellStep_suggestions_ne (price_getter : String → Except String ℚ)
    (portfolio : Portfolio) (st : RebState) (p : String × AnalysisResult)
    (k : String) (h : p.1 ≠ k) :
    dlookup (sellStep price_getter portfolio st p).suggestions k
      = dlookup st.suggestions k := by
  unfold sellStep
  by_cases hrec : p.2.recommendation = "ПРОДАВАТЬ"
  · simp only [hrec, ne_eq, not_true_eq_false, if_false]
    cases hpos : portfolio.get_position p.1 with
    | none => simp [dlookup_dinsert_ne _ _ _ _ h]
    | some pos =>
      by_cases hq : pos.quantity ≤ 0
      · simp [hq, dlookup_dinsert_ne _ _ _ _ h]
      · cases hpg : price_getter p.1 with
        | error e => simp [hq, dlookup_dinsert_ne _ _ _ _ h]
        | ok price => simp [hq, dlookup_dinsert_ne _ _ _ _ h]
  · simp [hrec]

theorem sellPhase_suggestions_ne (price_getter : String → Except String ℚ)
    (portfolio : Portfolio) (l : List (String × AnalysisResult)) (st : RebState)
    (k : String) (h : ∀ p ∈ l, p.1 ≠ k) :
    dlookup (sellPhase price_getter portfolio l st).suggestions k
      = dlookup st.suggestions k := by
  induction l generalizing st with
  | nil => rfl
  | cons p rest ih =>
    rw [sellPhase, ih _ (fun q hq => h q (List.mem_cons_of_mem p hq)),
      sellStep_suggestions_ne _ _ _ _ _ (h p (List.mem_cons_self p rest))]

theorem sellPhase_append (price_getter : String → Except String ℚ)
    (portfolio : Portfolio) (a b : List (String × AnalysisResult)) (st : RebState) :
    sellPhase price_getter portfolio (a ++ b) st
      = sellPhase price_getter portfolio b (sellPhase price_getter portfolio a st) := by
  induction a generalizing st with
  | nil => rfl
  | cons p rest ih => rw [List.cons_append, sellPhase, sellPhase, ih]

theorem buyStep_suggestions_ne (price_getter : String → Except String ℚ)
    (n : Nat) (st : RebState) (t : String) (k : String) (h : t ≠ k) :
    dlookup (buyStep price_getter n st t).suggestions k
      = dlookup st.suggestions k := by
  unfold buyStep
  cases hpg : price_getter t with
  | error e => simp [dlookup_dinsert_ne _ _ _ _ h]
  | ok price =>
    simp only []
    by_cases hq : 0 < pyInt ((if n = 0 then 0 else st.cash / n) / (price * (1 + BROKER_FEE)))
    · simp [hq, dlookup_dinsert_ne _ _ _ _ h]
    · simp [hq, dlookup_dinsert_ne _ _ _ _ h]

theorem buyPhase_suggestions_ne (price_getter : String → Except String ℚ)
    (n : Nat) (l : List String) (st : RebState) (k : String)
    (h : ∀ t ∈ l, t ≠ k) :
    dlookup (buyPhase price_getter n l st).suggestions k
      = dlookup st.suggestions k := by
  induction l generalizing st with
  | nil => rfl
  | cons t rest ih =>
    rw [buyPhase, ih _ (fun q hq => h q (List.mem_cons_of_mem t hq)),
      buyStep_suggestions_ne _ _ _ _ _ (h t (List.mem_cons_self t rest))]

theorem holdPhase_suggestions_some (l : List (String × AnalysisResult))
    (st : RebState) (k : String) (v : String) (h : dlookup st.suggestions k = some v) :
    dlookup (holdPhase l st).suggestions k = some v := by
  induction l generalizing st with
  | nil => exact h
  | cons p rest ih =>
    rw [holdPhase]
    by_cases hmem : dmem st.suggestions p.1
    · simp only [hmem, if_true]
      exact ih st h
    · simp only [hmem, if_false]
      apply ih
      by_cases hk : p.1 = k
      · subst hk
        exact absurd (by simp [dmem, h]) hmem
      · simpa [dlookup_dinsert_ne _ _ _ _ hk] using h

/-! Section: The recommendation-counting loop -/

/-- The three recommendation tokens that index the fixed
`recommendations_count` dictionary. -/
def validRec (rec : String) : Prop :=
  rec = "КУПИТЬ" ∨ rec = "ПРОДАВАТЬ" ∨ rec = "ДЕРЖАТЬ"

instance (rec : String) : Decidable (validRec rec) := by
  unfold validRec
  infer_instance

theorem recIncr_ok_of_valid (c : RecCounts) (rec : String) (h : validRec rec) :
    ∃ c', recIncr c rec = Except.ok c' := by
  rcases h with h | h | h <;> simp [recIncr, h]

theorem recIncr_error_of_invalid (c : RecCounts) (rec : String) (h : ¬ validRec rec) :
    recIncr c rec = Except.error ("KeyError: " ++ rec) := by
  unfold validRec at h
  push_neg at h
  simp [recIncr, h.1, h.2.1, h.2.2]

theorem countRecommendations_ok_of_valid (l : List (String × AnalysisResult))
    (c : RecCounts) (h : ∀ p ∈ l, validRec p.2.recommendation) :
    ∃ c', countRecommendations c l = Except.ok c' := by
  induction l generalizing c with
  | nil => exact ⟨c, rfl⟩
  | cons p rest ih =>
    obtain ⟨c', hc'⟩ := recIncr_ok_of_valid c p.2.recommendation
      (h p (List.mem_cons_self p rest))
    rw [countRecommendations, hc']
    exact ih c' (fun q hq => h q (List.mem_cons_of_mem p hq))

theorem countRecommendations_error_of_invalid (l : List (String × AnalysisResult))
    (c : RecCounts) (p : String × AnalysisResult) (hp : p ∈ l)
    (h : ¬ validRec p.2.recommendation) :
    ∃ e, countRecommendations c l = Except.error e := by
  induction l generalizing c with
  | nil => exact absurd hp (List.not_mem_nil p)
  | cons q rest ih =>
    rcases List.mem_cons.mp hp with hq | hq
    · subst hq
      rw [countRecommendations, recIncr_error_of_invalid c _ h]
      exact ⟨_, rfl⟩
    · cases hc : recIncr c q.2.recommendation with
      | error e => rw [countRecommendations, hc]; exact ⟨e, rfl⟩
      | ok c' =>
        rw [countRecommendations, hc]
        exact ih c' hq

/-- Unfolding of `suggest_rebalancing` on a nonempty mapping whose counting
loop succeeds. -/
theorem suggest_rebalancing_eq (price_getter : String → Except String ℚ)
    (l : List (String × AnalysisResult)) (portfolio : Portfolio) (c : RecCounts)
    (hne : l ≠ []) (hcount : countRecommendations ⟨0, 0, 0⟩ l = Except.ok c) :
    suggest_rebalancing price_getter l portfolio
      = Except.ok (dinsert
          (holdPhase l
            (buyPhase price_getter (buyTickersOf l).length (buyTickersOf l)
              (sellPhase price_getter portfolio l ⟨[], portfolio.cash_rub⟩))).suggestions
          "RUB"
          ("Остаток " ++ toString (pyRound
            (holdPhase l
              (buyPhase price_getter (buyTickersOf l).length (buyTickersOf l)
                (sellPhase price_getter portfolio l ⟨[], portfolio.cash_rub⟩))).cash))) := by
  have hlen : ¬ l.length = 0 := by
    intro h0
    exact hne (List.length_eq_zero.mp h0)
  unfold suggest_rebalancing
  rw [if_neg hlen, hcount]

/-! Section: Retry loop lemmas -/

/-- The outcome the loop commits to as soon as an attempt does not raise a
transient error: the returned value, or the re-raised non-transient
exception. -/
def decisiveOutcome {A : Type} : CallResult A → Option (RetryOutcome A)
  | CallResult.ok a => some (RetryOutcome.value a)
  | CallResult.fatal msg => some (RetryOutcome.reraised msg)
  | CallResult.transient _ => none

theorem retryGo_exhaust_aux {A : Type} (f : Nat → CallResult A) (delay : ℚ)
    (m : Nat) (msg : String) :
    ∀ d attempt, attempt + d + 1 = m →
      (∀ k, attempt ≤ k → k < m → ∃ s, f k = CallResult.transient s) →
      f (m - 1) = CallResult.transient msg →
      retryGo f delay m attempt
        = ⟨d + 1, List.replicate d delay,
            some (RetryOutcome.apiError
              ("API call failed after " ++ toString m ++ " attempts: " ++ msg))⟩ := by
  intro d
  induction d with
  | zero =>
    intro attempt hm _htrans hlast
    have hlt : attempt < m := by omega
    have heq : attempt = m - 1 := by omega
    rw [retryGo, dif_pos hlt]
    rw [heq, hlast]
    simp
  | succ d ih =>
    intro attempt hm htrans hlast
    have hlt : attempt < m := by omega
    have hne : attempt ≠ m - 1 := by omega
    obtain ⟨s, hs⟩ := htrans attempt (Nat.le_refl attempt) hlt
    rw [retryGo, dif_pos hlt, hs]
    simp only [hne, if_false]
    rw [ih (attempt + 1) (by omega) (fun k hk hkm => htrans k (by omega) hkm) hlast]
    simp [List.replicate_succ]

theorem retryGo_decisive_aux {A : Type} (f : Nat → CallResult A) (delay : ℚ)
    (m : Nat) (out : RetryOutcome A) :
    ∀ d attempt, attempt + d < m →
      (∀ j, attempt ≤ j → j < attempt + d → ∃ s, f j = CallResult.transient s) →
      decisiveOutcome (f (attempt + d)) = some out →
      retryGo f delay m attempt
        = ⟨d + 1, List.replicate d delay, some out⟩ := by
  intro d
  induction d with
  | zero =>
    intro attempt hm _htrans hdec
    have hlt : attempt < m := by omega
    rw [retryGo, dif_pos hlt]
    cases hf : f attempt with
    | ok a =>
      rw [Nat.add_zero] at hdec
      rw [hf] at hdec
      simp only [decisiveOutcome] at hdec
      simp [← hdec]
    | fatal s =>
      rw [Nat.add_zero] at hdec
      rw [hf] at hdec
      simp only [decisiveOutcome] at hdec
      simp [← hdec]
    | transient s =>
      rw [Nat.add_zero] at hdec
      rw [hf] at hdec
      simp [decisiveOutcome] at hdec
  | succ d ih =>
    intro attempt hm htrans hdec
    have hlt : attempt < m := by omega
    have hne : attempt ≠ m - 1 := by omega
    obtain ⟨s, hs⟩ := htrans attempt (Nat.le_refl attempt) (by omega)
    rw [retryGo, dif_pos hlt, hs]
    simp only [hne, if_false]
    rw [ih (attempt + 1) (by omega)
      (fun j hj hjd => htrans j (by omega) (by omega))
      (by rw [show attempt + 1 + d = attempt + (d + 1) by omega]; exact hdec)]
    simp [List.replicate_succ]

/-! Section: Claim theorems -/

/-- C5: for every final-verdict text, the extracted recommendation is BUY
("КУПИТЬ") if the text contains the BUY token — including when it also
contains the SELL token — else SELL ("ПРОДАВАТЬ") if the text contains the
SELL token, else HOLD ("ДЕРЖАТЬ"). -/
theorem claim_C5_recommendation_extraction (text : String) :
    (strContains text "КУПИТЬ" = true → extract_recommendation text = "КУПИТЬ")
    ∧ (strContains text "КУПИТЬ" = true → strContains text "ПРОДАВАТЬ" = true →
        extract_recommendation text = "КУПИТЬ")
    ∧ (strContains text "КУПИТЬ" = false → strContains text "ПРОДАВАТЬ" = true →
        extract_recommendation text = "ПРОДАВАТЬ")
    ∧ (strContains text "КУПИТЬ" = false → strContains text "ПРОДАВАТЬ" = false →
        extract_recommendation text = "ДЕРЖАТЬ") := by
  refine ⟨fun h => ?_, fun h _ => ?_, fun h1 h2 => ?_, fun h1 h2 => ?_⟩
  · simp [extract_recommendation, h]
  · simp [extract_recommendation, h]
  · simp [extract_recommendation, h1, h2]
  · simp [extract_recommendation, h1, h2]

/-- Witness for C5: a verdict containing both tokens extracts to BUY. -/
theorem claim_C5_witness :
    strContains "Можно КУПИТЬ, но скорее ПРОДАВАТЬ" "КУПИТЬ" = true
    ∧ strContains "Можно КУПИТЬ, но скорее ПРОДАВАТЬ" "ПРОДАВАТЬ" = true
    ∧ extract_recommendation "Можно КУПИТЬ, но скорее ПРОДАВАТЬ" = "КУПИТЬ" :=
  ⟨by decide, by decide,
    (claim_C5_recommendation_extraction "Можно КУПИТЬ, но скорее ПРОДАВАТЬ").2.1
      (by decide) (by decide)⟩

/-- C6: constructing a `PortfolioPosition` succeeds exactly when the ticker
has at least 3 characters and the quantity is non-negative; on success the
stored ticker is the input normalized to uppercase and the quantity is
unchanged; otherwise construction raises a validation error. -/
theorem claim_C6_position_validation (t : String) (q : Int) :
    ((∃ pos, mkPortfolioPosition t q = Except.ok pos) ↔ (3 ≤ t.length ∧ 0 ≤ q))
    ∧ (3 ≤ t.length → 0 ≤ q →
        mkPortfolioPosition t q = Except.ok ⟨pyUpper t, q⟩)
    ∧ (t.length < 3 →
        mkPortfolioPosition t q = Except.error "Ticker must be at least 3 characters")
    ∧ (3 ≤ t.length → q < 0 →
        mkPortfolioPosition t q = Except.error "Quantity must be non-negative") := by
  refine ⟨⟨fun ⟨pos, hpos⟩ => ?_, fun ⟨h3, hq⟩ => ?_⟩, fun h3 hq => ?_, fun h3 => ?_,
    fun h3 hq => ?_⟩
  · by_cases h3 : t.length < 3
    · simp [mkPortfolioPosition, validate_ticker, h3] at hpos
    · by_cases hq : q < 0
      · simp [mkPortfolioPosition, validate_ticker, validate_quantity, h3, hq] at hpos
      · exact ⟨by omega, by omega⟩
  · exact ⟨⟨pyUpper t, q⟩, by
      simp [mkPortfolioPosition, validate_ticker, validate_quantity,
        Nat.not_lt.mpr h3, Int.not_lt.mpr hq]⟩
  · simp [mkPortfolioPosition, validate_ticker, validate_quantity,
      Nat.not_lt.mpr h3, Int.not_lt.mpr hq]
  · simp [mkPortfolioPosition, validate_ticker, h3]
  · simp [mkPortfolioPosition, validate_ticker, validate_quantity,
      Nat.not_lt.mpr h3, hq]

/-- Witness for C6: "abc" with quantity 5 validates to ticker "ABC",
quantity 5. -/
theorem claim_C6_witness :
    3 ≤ ("abc" : String).length ∧ (0 : Int) ≤ 5
    ∧ mkPortfolioPosition "abc" 5 = Except.ok ⟨"ABC", 5⟩ :=
  ⟨by decide, by decide, by
    have h := (claim_C6_position_validation "abc" 5).2.1 (by decide) (by decide)
    rw [h]
    rfl⟩

/-- C7: `AnalysisResult` construction succeeds storing the confidence
unchanged exactly for confidence inside `[0, 1]` (bounds included), and
fails with a validation error outside. -/
theorem claim_C7_confidence_validation (t r : String) (v : ℚ)
    (d : List (String × String)) :
    (0 ≤ v → v ≤ 1 →
      validate_confidence v = Except.ok v
        ∧ mkAnalysisResult t r v d = Except.ok ⟨t, r, v, d⟩)
    ∧ (¬ (0 ≤ v ∧ v ≤ 1) →
      mkAnalysisResult t r v d = Except.error "Confidence must be between 0 and 1") := by
  constructor
  · intro h0 h1
    constructor
    · simp [validate_confidence, h0, h1]
    · simp [mkAnalysisResult, validate_confidence, h0, h1]
  · intro h
    simp [mkAnalysisResult, validate_confidence, h]

/-- Witness for C7: confidence 1 (upper bound included) is accepted and
stored unchanged. -/
theorem claim_C7_witness :
    (0 : ℚ) ≤ 1 ∧ (1 : ℚ) ≤ 1
    ∧ mkAnalysisResult "SBER" "КУПИТЬ" 1 [] = Except.ok ⟨"SBER", "КУПИТЬ", 1, []⟩ :=
  ⟨by decide, by decide,
    ((claim_C7_confidence_validation "SBER" "КУПИТЬ" 1 []).1 (by decide) (by decide)).2⟩

/-- C8: if the wrapped operation raises a transient error on every attempt,
the wrapper invokes it exactly `max_retries` times, sleeps the fixed delay
between consecutive attempts (`max_retries - 1` times), and fails with the
`APIError` carrying the attempt count and last cause; a non-transient error
propagates immediately with no further attempts; a successful attempt
returns its result unchanged. -/
theorem claim_C8_retry_wrapper {A : Type} (m : Nat) (delay : ℚ)
    (f : Nat → CallResult A) (hm : 1 ≤ m) :
    ((∀ k, k < m → ∃ s, f k = CallResult.transient s) →
      ∀ msg, f (m - 1) = CallResult.transient msg →
      retry_on_failure m delay f
        = ⟨m, List.replicate (m - 1) delay,
            some (RetryOutcome.apiError
              ("API call failed after " ++ toString m ++ " attempts: " ++ msg))⟩)
    ∧ (∀ k a, k < m → (∀ j, j < k → ∃ s, f j = CallResult.transient s) →
      f k = CallResult.ok a →
      retry_on_failure m delay f
        = ⟨k + 1, List.replicate k delay, some (RetryOutcome.value a)⟩)
    ∧ (∀ k msg, k < m → (∀ j, j < k → ∃ s, f j = CallResult.transient s) →
      f k = CallResult.fatal msg →
      retry_on_failure m delay f
        = ⟨k + 1, List.replicate k delay, some (RetryOutcome.reraised msg)⟩) := by
  refine ⟨fun htrans msg hlast => ?_, fun k a hk htrans hok => ?_,
    fun k msg hk htrans hfatal => ?_⟩
  · have h := retryGo_exhaust_aux f delay m msg (m - 1) 0 (by omega)
      (fun k _ hkm => htrans k hkm) hlast
    rw [retry_on_failure, h]
    have : m - 1 + 1 = m := by omega
    rw [this]
  · have h := retryGo_decisive_aux f delay m (RetryOutcome.value a) k 0
      (by omega) (fun j hj hjk => htrans j (by omega))
      (by rw [Nat.zero_add, hok]; rfl)
    rw [retry_on_failure, h]
  · have h := retryGo_decisive_aux f delay m (RetryOutcome.reraised msg) k 0
      (by omega) (fun j hj hjk => htrans j (by omega))
      (by rw [Nat.zero_add, hfatal]; rfl)
    rw [retry_on_failure, h]

/-- Witness for C8: two attempts, both transient, exhaust the wrapper after
exactly 2 calls and 1 sleep. -/
theorem claim_C8_witness :
    1 ≤ 2
    ∧ retry_on_failure 2 1 (fun _ => (CallResult.transient "boom" : CallResult Nat))
      = ⟨2, List.replicate 1 1,
          some (RetryOutcome.apiError ("API call failed after " ++ toString 2 ++ " attempts: " ++ "boom"))⟩ :=
  ⟨by decide,
    (claim_C8_retry_wrapper 2 1 (fun _ => CallResult.transient "boom") (by decide)).1
      (fun k _ => ⟨"boom", rfl⟩) "boom" rfl⟩

/-- C2 (code bug evidence): at the concrete failing input — a portfolio with
positions AAA and BBB where the pipeline run raises "boom" for AAA — the
async controller `analyze_portfolio_async` propagates the exception and
returns no mapping at all, while the sequential `analyze_portfolio` catches
it and still returns one entry per ticker, recording AAA as the degraded
HOLD result with confidence 0. -/
theorem claim_C2_async_batch_abort :
    analyze_portfolio_async
        (fun pos => if pos.ticker = "AAA" then Except.error "boom"
          else Except.ok ⟨pos.ticker, pos.quantity, "", "", "", "", "", "", ""⟩)
        ⟨[⟨"AAA", 1⟩, ⟨"BBB", 2⟩], 0, RiskProfile.BALANCED⟩
      = Except.error "boom"
    ∧ analyze_portfolio
        (fun pos => if pos.ticker = "AAA" then Except.error "boom"
          else Except.ok ⟨pos.ticker, pos.quantity, "", "", "", "", "", "", ""⟩)
        ⟨[⟨"AAA", 1⟩, ⟨"BBB", 2⟩], 0, RiskProfile.BALANCED⟩
      = [("AAA", errorResult ⟨"AAA", 1⟩ "boom"),
         ("BBB", buildResult ⟨"BBB", 2⟩ ⟨"BBB", 2, "", "", "", "", "", "", ""⟩)]
    ∧ (errorResult ⟨"AAA", 1⟩ "boom").recommendation = "ДЕРЖАТЬ"
    ∧ (errorResult ⟨"AAA", 1⟩ "boom").confidence = 0 :=
  ⟨rfl, rfl, rfl, rfl⟩

/-- C9 (amended): each of the four summaries included in the stage-7 prompt
is at most 303 characters long (at most 300 retained characters plus a
three-character ellipsis); a summary already at most 300 characters is
included unchanged. -/
theorem claim_C9_final_truncation (s : State) :
    ((final_analysis_summaries s).1.length ≤ 303
      ∧ (final_analysis_summaries s).2.1.length ≤ 303
      ∧ (final_analysis_summaries s).2.2.1.length ≤ 303
      ∧ (final_analysis_summaries s).2.2.2.length ≤ 303)
    ∧ (s.market_news.length ≤ 300 → (final_analysis_summaries s).1 = s.market_news)
    ∧ (s.semantic.length ≤ 300 → (final_analysis_summaries s).2.1 = s.semantic)
    ∧ (s.moex_data_analysis.length ≤ 300 →
        (final_analysis_summaries s).2.2.1 = s.moex_data_analysis)
    ∧ (s.ifrs_data.length ≤ 300 → (final_analysis_summaries s).2.2.2 = s.ifrs_data) :=
  ⟨⟨truncate_text_length_le _ 300, truncate_text_length_le _ 300,
    truncate_text_length_le _ 300, truncate_text_length_le _ 300⟩,
   fun h => truncate_text_of_le _ 300 h, fun h => truncate_text_of_le _ 300 h,
   fun h => truncate_text_of_le _ 300 h, fun h => truncate_text_of_le _ 300 h⟩

/-- Witness for C9: a short market-mood summary passes into the prompt
unchanged. -/
theorem claim_C9_witness :
    ("Настрой позитивный" : String).length ≤ 300
    ∧ (final_analysis_summaries
        ⟨"SBER", 1, "", "", "", "", "", "", "Настрой позитивный"⟩).1
      = "Настрой позитивный" :=
  ⟨by decide,
    (claim_C9_final_truncation
      ⟨"SBER", 1, "", "", "", "", "", "", "Настрой позитивный"⟩).2.1 (by decide)⟩

/-- Counterexample for C9 as stated: a 301-character market-mood summary is
included in the stage-7 prompt as a 303-character string, which exceeds the
claimed 300-character bound. -/
theorem claim_C9_counterexample :
    (final_analysis_summaries
      ⟨"SBER", 1, "", "", "", "", "", "", String.mk (List.replicate 301 'a')⟩).1.length = 303
    ∧ ¬ ((final_analysis_summaries
      ⟨"SBER", 1, "", "", "", "", "", "", String.mk (List.replicate 301 'a')⟩).1.length ≤ 300) := by
  have hlen : (String.mk (List.replicate 301 'a')).length = 301 := by
    rw [String.length_mk, List.length_replicate]
  have h : (final_analysis_summaries
      ⟨"SBER", 1, "", "", "", "", "", "", String.mk (List.replicate 301 'a')⟩).1
      = truncate_text (String.mk (List.replicate 301 'a')) 300 := by
    simp [final_analysis_summaries]
  rw [h, truncate_text_length_of_lt _ 300 (by omega)]
  omega

/-- C10: `AnalysisResult` construction places no constraint on the
recommendation string; for every recommendations mapping in which some
recommendation is not one of the three tokens, `suggest_rebalancing` raises
(aborting the allocation); and when every recommendation is one of the three
tokens that error branch is unreachable and the allocation returns a plan. -/
theorem claim_C10_unvalidated_recommendation (pg : String → Except String ℚ)
    (l : List (String × AnalysisResult)) (pf : Portfolio) :
    (∀ t r (v : ℚ) d, 0 ≤ v → v ≤ 1 →
      mkAnalysisResult t r v d = Except.ok ⟨t, r, v, d⟩)
    ∧ ((∃ p ∈ l, ¬ validRec p.2.recommendation) →
      ∃ e, suggest_rebalancing pg l pf = Except.error e)
    ∧ ((∀ p ∈ l, validRec p.2.recommendation) →
      ∃ plan, suggest_rebalancing pg l pf = Except.ok plan) := by
  refine ⟨fun t r v d h0 h1 => ?_, fun ⟨p, hp, hbad⟩ => ?_, fun hvalid => ?_⟩
  · simp [mkAnalysisResult, validate_confidence, h0, h1]
  · have hlen : ¬ l.length = 0 := by
      intro h0
      rw [List.length_eq_zero.mp h0] at hp
      exact List.not_mem_nil p hp
    obtain ⟨e, he⟩ := countRecommendations_error_of_invalid l ⟨0, 0, 0⟩ p hp hbad
    refine ⟨e, ?_⟩
    unfold suggest_rebalancing
    rw [if_neg hlen, he]
  · cases hl : l with
    | nil => exact ⟨[], by simp [suggest_rebalancing]⟩
    | cons q rest =>
      obtain ⟨c, hc⟩ := countRecommendations_ok_of_valid l ⟨0, 0, 0⟩ hvalid
      rw [← hl]
      exact ⟨_, suggest_rebalancing_eq pg l pf c (by rw [hl]; simp) hc⟩

/-- Witness for C10: the out-of-vocabulary recommendation "ЖДАТЬ" makes the
allocation raise; the vocabulary recommendation "ДЕРЖАТЬ" lets it return a
plan. -/
theorem claim_C10_witness :
    (¬ validRec "ЖДАТЬ")
    ∧ (∃ e, suggest_rebalancing (fun _ => Except.ok 1)
        [("AAA", ⟨"AAA", "ЖДАТЬ", 1, []⟩)] ⟨[], 0, RiskProfile.BALANCED⟩
        = Except.error e)
    ∧ (∃ plan, suggest_rebalancing (fun _ => Except.ok 1)
        [("AAA", ⟨"AAA", "ДЕРЖАТЬ", 1, []⟩)] ⟨[], 0, RiskProfile.BALANCED⟩
        = Except.ok plan) :=
  ⟨by decide,
   (claim_C10_unvalidated_recommendation (fun _ => Except.ok 1)
      [("AAA", ⟨"AAA", "ЖДАТЬ", 1, []⟩)] ⟨[], 0, RiskProfile.BALANCED⟩).2.1
     ⟨("AAA", ⟨"AAA", "ЖДАТЬ", 1, []⟩), List.mem_cons_self _ _, by decide⟩,
   (claim_C10_unvalidated_recommendation (fun _ => Except.ok 1)
      [("AAA", ⟨"AAA", "ДЕРЖАТЬ", 1, []⟩)] ⟨[], 0, RiskProfile.BALANCED⟩).2.2
     (by intro p hp; rw [List.mem_singleton.mp hp]; exact Or.inr (Or.inr rfl))⟩

/-- C4 (amended): for every invocation of the allocator on a *nonempty*
recommendations mapping whose recommendations all lie in the three-token
vocabulary, the returned plan contains the synthetic "RUB" entry recording
the portfolio's starting cash plus the total after-fee-and-tax sell proceeds
minus the total buy costs as incurred, rounded to the nearest integer (ties
to even, Python `round`). -/
theorem claim_C4_residual_entry (pg : String → Except String ℚ)
    (l : List (String × AnalysisResult)) (pf : Portfolio)
    (hne : l ≠ []) (hvalid : ∀ p ∈ l, validRec p.2.recommendation) :
    ∃ plan, suggest_rebalancing pg l pf = Except.ok plan
      ∧ dlookup plan "RUB" = some ("Остаток " ++ toString (pyRound
          (pf.cash_rub + sellGain pg pf l
            - buyCost pg (buyTickersOf l).length
                (pf.cash_rub + sellGain pg pf l) (buyTickersOf l)))) := by
  obtain ⟨c, hc⟩ := countRecommendations_ok_of_valid l ⟨0, 0, 0⟩ hvalid
  refine ⟨_, suggest_rebalancing_eq pg l pf c hne hc, ?_⟩
  rw [dlookup_dinsert_self]
  have hcash :
      (holdPhase l
        (buyPhase pg (buyTickersOf l).length (buyTickersOf l)
          (sellPhase pg pf l ⟨[], pf.cash_rub⟩))).cash
      = pf.cash_rub + sellGain pg pf l
          - buyCost pg (buyTickersOf l).length
              (pf.cash_rub + sellGain pg pf l) (buyTickersOf l) := by
    rw [holdPhase_cash, buyPhase_cash, sellPhase_cash]
  rw [hcash]

/-- Witness for C4: a single HOLD recommendation with no trades leaves the
residual at the rounded starting cash. -/
theorem claim_C4_witness :
    ([("AAA", (⟨"AAA", "ДЕРЖАТЬ", 1, []⟩ : AnalysisResult))] ≠ [])
    ∧ ∃ plan, suggest_rebalancing (fun _ => Except.ok 1)
        [("AAA", ⟨"AAA", "ДЕРЖАТЬ", 1, []⟩)] ⟨[], 7, RiskProfile.BALANCED⟩
        = Except.ok plan
      ∧ dlookup plan "RUB" = some ("Остаток " ++ toString (pyRound
          ((⟨[], 7, RiskProfile.BALANCED⟩ : Portfolio).cash_rub
            + sellGain (fun _ => Except.ok 1) ⟨[], 7, RiskProfile.BALANCED⟩
                [("AAA", ⟨"AAA", "ДЕРЖАТЬ", 1, []⟩)]
            - buyCost (fun _ => Except.ok 1)
                (buyTickersOf [("AAA", ⟨"AAA", "ДЕРЖАТЬ", 1, []⟩)]).length
                ((⟨[], 7, RiskProfile.BALANCED⟩ : Portfolio).cash_rub
                  + sellGain (fun _ => Except.ok 1) ⟨[], 7, RiskProfile.BALANCED⟩
                      [("AAA", ⟨"AAA", "ДЕРЖАТЬ", 1, []⟩)])
                (buyTickersOf [("AAA", ⟨"AAA", "ДЕРЖАТЬ", 1, []⟩)])))) :=
  ⟨by simp,
   claim_C4_residual_entry (fun _ => Except.ok 1)
     [("AAA", ⟨"AAA", "ДЕРЖАТЬ", 1, []⟩)] ⟨[], 7, RiskProfile.BALANCED⟩
     (by simp)
     (by intro p hp; rw [List.mem_singleton.mp hp]; exact Or.inr (Or.inr rfl))⟩

/-- Counterexample for C4 as stated: invoking the allocator on an empty
recommendations mapping returns the empty plan, which contains no "RUB"
entry at all. -/
theorem claim_C4_counterexample :
    suggest_rebalancing (fun _ => Except.ok 1) [] ⟨[], 1000, RiskProfile.BALANCED⟩
      = Except.ok []
    ∧ dlookup ([] : List (String × String)) "RUB" = none :=
  ⟨rfl, rfl⟩

theorem sellStep_self_some (price_getter : String → Except String ℚ)
    (portfolio : Portfolio) (st : RebState) (t : String) (r : AnalysisResult)
    (hrec : r.recommendation = "ПРОДАВАТЬ") :
    ∃ v, dlookup (sellStep price_getter portfolio st (t, r)).suggestions t = some v := by
  unfold sellStep
  simp only [hrec, ne_eq, not_true_eq_false, if_false]
  cases hpos : portfolio.get_position t with
  | none => exact ⟨_, dlookup_dinsert_self _ _ _⟩
  | some pos =>
    by_cases hq : pos.quantity ≤ 0
    · simp only [hq, if_true]
      exact ⟨_, dlookup_dinsert_self _ _ _⟩
    · simp only [hq, if_false]
      cases hpg : price_getter t with
      | error e => exact ⟨_, dlookup_dinsert_self _ _ _⟩
      | ok price => exact ⟨_, dlookup_dinsert_self _ _ _⟩

theorem buyTickers_not_self (pre post : List (String × AnalysisResult))
    (t : String) (r : AnalysisResult)
    (hfresh : ∀ p ∈ pre ++ post, p.1 ≠ t)
    (hrec : r.recommendation = "ПРОДАВАТЬ") :
    ∀ u ∈ buyTickersOf (pre ++ (t, r) :: post), u ≠ t := by
  intro u hu
  unfold buyTickersOf at hu
  rw [List.mem_map] at hu
  obtain ⟨p, hpf, rfl⟩ := hu
  rw [List.mem_filter] at hpf
  obtain ⟨hpl, hpbuy⟩ := hpf
  have hbuy : p.2.recommendation = "КУПИТЬ" := by
    simpa using hpbuy
  rcases List.mem_append.mp hpl with hp | hp
  · exact hfresh p (List.mem_append_left post hp)
  · rcases List.mem_cons.mp hp with hp | hp
    · subst hp
      rw [hrec] at hbuy
      simp at hbuy
    · exact hfresh p (List.mem_append_right pre hp)

/-- C3: within the sell loop, a SELL-recommended ticker with a held positive
position and a successful price lookup records "Продать q" and adds exactly
`p*q*(1-fee)*(1-tax)` to the cash pool; an absent or non-positive position
records "Позиция отсутствует" leaving cash unchanged; a raising price lookup
records "Цена недоступна" leaving cash unchanged; the loop then continues
with the remaining tickers; and the entry the loop records for the ticker
survives unchanged into the returned plan. -/
theorem claim_C3_sell_phase (pg : String → Except String ℚ) (pf : Portfolio)
    (st : RebState) (t : String) (r : AnalysisResult)
    (hrec : r.recommendation = "ПРОДАВАТЬ") :
    (∀ pos p, pf.get_position t = some pos → 0 < pos.quantity → pg t = Except.ok p →
      sellStep pg pf st (t, r)
        = ⟨dinsert st.suggestions t ("Продать " ++ toString pos.quantity),
           st.cash + p * pos.quantity * (1 - BROKER_FEE) * (1 - TAX_RATE)⟩)
    ∧ (pf.get_position t = none →
      sellStep pg pf st (t, r)
        = ⟨dinsert st.suggestions t "Позиция отсутствует", st.cash⟩)
    ∧ (∀ pos, pf.get_position t = some pos → pos.quantity ≤ 0 →
      sellStep pg pf st (t, r)
        = ⟨dinsert st.suggestions t "Позиция отсутствует", st.cash⟩)
    ∧ (∀ pos e, pf.get_position t = some pos → 0 < pos.quantity →
      pg t = Except.error e →
      sellStep pg pf st (t, r)
        = ⟨dinsert st.suggestions t "Цена недоступна", st.cash⟩)
    ∧ (∀ rest, sellPhase pg pf ((t, r) :: rest) st
        = sellPhase pg pf rest (sellStep pg pf st (t, r)))
    ∧ (∀ pre post plan c,
        (∀ p ∈ pre ++ post, p.1 ≠ t) → t ≠ "RUB" →
        countRecommendations ⟨0, 0, 0⟩ (pre ++ (t, r) :: post) = Except.ok c →
        suggest_rebalancing pg (pre ++ (t, r) :: post) pf = Except.ok plan →
        dlookup plan t
          = dlookup (sellStep pg pf (sellPhase pg pf pre ⟨[], pf.cash_rub⟩)
              (t, r)).suggestions t) := by
  have hstep : ∀ st' : RebState,
      pf.get_position t = none →
      sellStep pg pf st' (t, r)
        = ⟨dinsert st'.suggestions t "Позиция отсутствует", st'.cash⟩ := by
    intro st' hpos
    unfold sellStep
    simp [hrec, hpos]
  refine ⟨fun pos p hpos hq hpg => ?_, fun hpos => hstep st hpos,
    fun pos hpos hq => ?_, fun pos e hpos hq hpg => ?_, fun rest => rfl,
    fun pre post plan c hfresh hrub hcount hplan => ?_⟩
  · unfold sellStep
    simp only [hrec, ne_eq, not_true_eq_false, if_false, hpos]
    rw [if_neg (by omega), hpg]
  · unfold sellStep
    simp [hrec, hpos, hq]
  · unfold sellStep
    simp only [hrec, ne_eq, not_true_eq_false, if_false, hpos]
    rw [if_neg (by omega), hpg]
  · have hne : pre ++ (t, r) :: post ≠ [] := by simp
    rw [suggest_rebalancing_eq pg _ pf c hne hcount, Except.ok.injEq] at hplan
    subst hplan
    obtain ⟨v, hv⟩ := sellStep_self_some pg pf (sellPhase pg pf pre ⟨[], pf.cash_rub⟩)
      t r hrec
    have hsell : dlookup (sellPhase pg pf (pre ++ (t, r) :: post)
        ⟨[], pf.cash_rub⟩).suggestions t = some v := by
      rw [sellPhase_append, sellPhase,
        sellPhase_suggestions_ne pg pf post _ t
          (fun p hp => hfresh p (List.mem_append_right pre hp))]
      exact hv
    have hbuy : dlookup (buyPhase pg (buyTickersOf (pre ++ (t, r) :: post)).length
        (buyTickersOf (pre ++ (t, r) :: post))
        (sellPhase pg pf (pre ++ (t, r) :: post) ⟨[], pf.cash_rub⟩)).suggestions t
        = some v := by
      rw [buyPhase_suggestions_ne pg _ _ _ t
        (buyTickers_not_self pre post t r hfresh hrec)]
      exact hsell
    have hhold := holdPhase_suggestions_some (pre ++ (t, r) :: post) _ t v hbuy
    rw [dlookup_dinsert_ne _ _ _ _ (Ne.symm hrub), hhold, hv]

/-- Witness for C3: selling a held position of 2 shares at price 1 records
"Продать 2" and credits `1*2*(1-fee)*(1-tax)`. -/
theorem claim_C3_witness :
    ((⟨"AAA", "ПРОДАВАТЬ", 1, []⟩ : AnalysisResult).recommendation = "ПРОДАВАТЬ")
    ∧ (⟨[⟨"AAA", 2⟩], 0, RiskProfile.BALANCED⟩ : Portfolio).get_position "AAA"
        = some ⟨"AAA", 2⟩
    ∧ sellStep (fun _ => Except.ok 1) ⟨[⟨"AAA", 2⟩], 0, RiskProfile.BALANCED⟩
        ⟨[], 0⟩ ("AAA", ⟨"AAA", "ПРОДАВАТЬ", 1, []⟩)
      = ⟨dinsert [] "AAA" ("Продать " ++ toString (2 : Int)),
         0 + 1 * ((2 : Int) : ℚ) * (1 - BROKER_FEE) * (1 - TAX_RATE)⟩ :=
  ⟨rfl, by decide,
    (claim_C3_sell_phase (fun _ => Except.ok 1)
        ⟨[⟨"AAA", 2⟩], 0, RiskProfile.BALANCED⟩ ⟨[], 0⟩ "AAA"
        ⟨"AAA", "ПРОДАВАТЬ", 1, []⟩ rfl).1
      ⟨"AAA", 2⟩ 1 (by decide) (by decide) rfl⟩

/-- C1 (amended): in the buy loop, each candidate's cash share is the
*current* cash pool at that candidate's iteration divided by the fixed total
number `n` of BUY candidates (recomputed every iteration over the
already-reduced pool, not the post-sell pool split once up front); the
bought quantity is `floor(share / (price*(1+fee)))` (truncation coincides
with floor here because the share is non-negative); a candidate whose
computed quantity is 0 is recorded as "Недостаточно средств" and consumes no
cash; and the loop continues with the remaining candidates. -/
theorem claim_C1_buy_phase (pg : String → Except String ℚ) (n : Nat)
    (st : RebState) (t : String) (p : ℚ) (hn : 0 < n) (hp : pg t = Except.ok p)
    (hpp : 0 < p) (hcash : 0 ≤ st.cash) :
    (0 < ⌊(st.cash / n) / (p * (1 + BROKER_FEE))⌋ →
      buyStep pg n st t
        = ⟨dinsert st.suggestions t
            ("Купить " ++ toString ⌊(st.cash / n) / (p * (1 + BROKER_FEE))⌋),
           st.cash - ⌊(st.cash / n) / (p * (1 + BROKER_FEE))⌋ * p * (1 + BROKER_FEE)⟩)
    ∧ (⌊(st.cash / n) / (p * (1 + BROKER_FEE))⌋ = 0 →
      buyStep pg n st t = ⟨dinsert st.suggestions t "Недостаточно средств", st.cash⟩)
    ∧ (∀ rest, buyPhase pg n (t :: rest) st = buyPhase pg n rest (buyStep pg n st t)) := by
  have hn0 : ¬ n = 0 := by omega
  have hfee : (0 : ℚ) < 1 + BROKER_FEE := by norm_num [BROKER_FEE]
  have hnn : (0 : ℚ) ≤ (st.cash / n) / (p * (1 + BROKER_FEE)) :=
    div_nonneg (div_nonneg hcash (Nat.cast_nonneg n)) (mul_nonneg hpp.le hfee.le)
  refine ⟨fun hqpos => ?_, fun hqzero => ?_, fun rest => rfl⟩
  · unfold buyStep
    rw [hp]
    simp only [hn0, if_false]
    rw [pyInt_eq_floor _ hnn, if_pos hqpos]
  · unfold buyStep
    rw [hp]
    simp only [hn0, if_false]
    rw [pyInt_eq_floor _ hnn, if_neg (by omega)]

/-- Witness for C1: one candidate, zero cash — the computed quantity is 0,
the candidate is recorded as "Недостаточно средств" and no cash moves. -/
theorem claim_C1_witness :
    (0 < 1)
    ∧ ⌊((⟨[], 0⟩ : RebState).cash / (1 : Nat)) / ((1 : ℚ) * (1 + BROKER_FEE))⌋ = 0
    ∧ buyStep (fun _ => Except.ok 1) 1 ⟨[], 0⟩ "AAA"
        = ⟨dinsert [] "AAA" "Недостаточно средств", 0⟩ :=
  ⟨by decide,
   by simp,
   ((claim_C1_buy_phase (fun _ => Except.ok 1) 1 ⟨[], 0⟩ "AAA" 1
      (by decide) rfl (by decide) (by decide)).2.1 (by simp))⟩

/-- Counterexample for C1 as stated: with post-sell cash pool `C = 100` and
`n = 2` BUY candidates both priced `10000/10006` (so that
`price*(1+fee) = 1`), the claimed quantity `floor((C/n)/(price*(1+fee)))` is
50 for *every* candidate, yet the code buys only 25 for the second
candidate: the share is re-split from the already-reduced pool at every
iteration. -/
theorem claim_C1_counterexample :
    suggest_rebalancing (fun _ => Except.ok (10000/10006 : ℚ))
        [("AAA", ⟨"AAA", "КУПИТЬ", 1, []⟩), ("BBB", ⟨"BBB", "КУПИТЬ", 1, []⟩)]
        ⟨[], 100, RiskProfile.BALANCED⟩
      = Except.ok [("AAA", "Купить 50"), ("BBB", "Купить 25"), ("RUB", "Остаток 25")]
    ∧ ⌊((100 : ℚ) / 2) / ((10000/10006 : ℚ) * (1 + BROKER_FEE))⌋ = 50
    ∧ ("Купить 25" : String) ≠ "Купить 50" := by
  have h50 : "Купить " ++ toString (50 : Int) = "Купить 50" := rfl
  have h25 : "Купить " ++ toString (25 : Int) = "Купить 25" := rfl
  refine ⟨?_, ?_, by decide⟩
  · have hA50 : pyInt (50 : ℚ) = 50 := by
      rw [pyInt_eq_floor _ (by norm_num)]
      norm_num
    have hA25 : pyInt (25 : ℚ) = 25 := by
      rw [pyInt_eq_floor _ (by norm_num)]
      norm_num
    have hA : buyStep (fun _ => Except.ok (10000/10006 : ℚ)) 2 ⟨[], 100⟩ "AAA"
        = ⟨[("AAA", "Купить 50")], 50⟩ := by
      simp only [buyStep]
      norm_num [hA50, h50, BROKER_FEE]
      decide
    have hB : buyStep (fun _ => Except.ok (10000/10006 : ℚ)) 2
        ⟨[("AAA", "Купить 50")], 50⟩ "BBB"
        = ⟨[("AAA", "Купить 50"), ("BBB", "Купить 25")], 25⟩ := by
      simp only [buyStep]
      norm_num [hA25, h25, BROKER_FEE]
      decide
    have hbuy : buyPhase (fun _ => Except.ok (10000/10006 : ℚ)) 2 ["AAA", "BBB"]
        ⟨[], 100⟩ = ⟨[("AAA", "Купить 50"), ("BBB", "Купить 25")], 25⟩ := by
      rw [buyPhase, hA, buyPhase, hB]
      rfl
    have hround : pyRound (25 : ℚ) = 25 := by
      norm_num [pyRound]
    rw [suggest_rebalancing_eq (fun _ => Except.ok (10000/10006 : ℚ))
      [("AAA", ⟨"AAA", "КУПИТЬ", 1, []⟩), ("BBB", ⟨"BBB", "КУПИТЬ", 1, []⟩)]
      ⟨[], 100, RiskProfile.BALANCED⟩ ⟨2, 0, 0⟩ (by simp) rfl]
    have hsell : sellPhase (fun _ => Except.ok (10000/10006 : ℚ))
        ⟨[], 100, RiskProfile.BALANCED⟩
        [("AAA", ⟨"AAA", "КУПИТЬ", 1, []⟩), ("BBB", ⟨"BBB", "КУПИТЬ", 1, []⟩)]
        ⟨[], (⟨[], 100, RiskProfile.BALANCED⟩ : Portfolio).cash_rub⟩
        = ⟨[], 100⟩ := rfl
    have htick : buyTickersOf
        [("AAA", (⟨"AAA", "КУПИТЬ", 1, []⟩ : AnalysisResult)),
         ("BBB", ⟨"BBB", "КУПИТЬ", 1, []⟩)] = ["AAA", "BBB"] := rfl
    rw [hsell, htick]
    have hlen : (["AAA", "BBB"] : List String).length = 2 := rfl
    rw [hlen, hbuy]
    have hhold : holdPhase
        [("AAA", (⟨"AAA", "КУПИТЬ", 1, []⟩ : AnalysisResult)),
         ("BBB", ⟨"BBB", "КУПИТЬ", 1, []⟩)]
        ⟨[("AAA", "Купить 50"), ("BBB", "Купить 25")], 25⟩
        = ⟨[("AAA", "Купить 50"), ("BBB", "Купить 25")], 25⟩ := rfl
    rw [hhold]
    have hcash : (⟨[("AAA", "Купить 50"), ("BBB", "Купить 25")], 25⟩ : RebState).cash
        = 25 := rfl
    rw [hcash, hround]
    rfl
  · norm_num [BROKER_FEE]

end Moexer
